import Mathlib

/-!
Shallow embedding of the marcopolo-go semantic tool discovery engine:
the tools table repository (upsert and similarity search), the tool
catalog and dispatch registries, the MCP protocol handlers, the OpenAI
embedding gateway and the get_holidays tool, together with proofs of the
behavioural properties stated in the specification.
-/

set_option linter.unusedVariables false

-- ===== internal/models + internal/db: persisted tools =====

/-- models.Tool, a persisted row of the tools table (internal/models/tool.go).
Timestamps are abstracted as integers, the pgvector float32 vector as a list
of exact rationals; a NULL embedding, input_schema or deleted_at is none. -/
structure Tool where
  ID : Int
  CreatedAt : Int
  UpdatedAt : Int
  DeletedAt : Option Int
  Name : String
  Description : String
  Embedding : Option (List ℚ)
  InputSchema : Option String
deriving DecidableEq

/-- db.ToolWithScore: a Tool together with its relevance_score column
(internal/db/tools_repository.go). -/
structure ToolWithScore where
  tool : Tool
  RelevanceScore : ℚ
deriving DecidableEq

/-- The four fields of the tool argument that UpsertTx binds to the
placeholders of its INSERT statement. -/
structure ToolInput where
  Name : String
  Description : String
  Embedding : Option (List ℚ)
  InputSchema : Option String
deriving DecidableEq

/-- A row matches the partial unique index tools_name_unique_idx,
ON tools(name) WHERE deleted_at IS NULL, for the name n. -/
def isLiveNamed (n : String) (r : Tool) : Bool :=
  r.Name == n && r.DeletedAt.isNone

/-- PostgresToolRepository.UpsertTx: INSERT INTO tools ... ON CONFLICT (name)
WHERE deleted_at IS NULL DO UPDATE SET description, embedding, input_schema,
updated_at = now() RETURNING id, created_at, updated_at.
nowTime models now(), newId the next bigserial value. The unique partial
index guarantees at most one live row per name, so the map below rewrites at
most that one conflicting row. Returns the new table state and the row
described by the RETURNING clause. -/
def UpsertTx (nowTime newId : Int) (table : List Tool) (t : ToolInput) :
    List Tool × Tool :=
  match table.find? (isLiveNamed t.Name) with
  | some row =>
    let updated : Tool :=
      { row with
        Description := t.Description
        Embedding := t.Embedding
        InputSchema := t.InputSchema
        UpdatedAt := nowTime }
    (table.map fun r => if isLiveNamed t.Name r then updated else r, updated)
  | none =>
    let inserted : Tool :=
      { ID := newId
        CreatedAt := nowTime
        UpdatedAt := nowTime
        DeletedAt := none
        Name := t.Name
        Description := t.Description
        Embedding := t.Embedding
        InputSchema := t.InputSchema }
    (table ++ [inserted], inserted)

/-- The WHERE clause of FindSimilarWithScore apart from the score threshold:
deleted_at IS NULL AND embedding IS NOT NULL. -/
def isLiveWithEmbedding (r : Tool) : Bool :=
  r.DeletedAt.isNone && r.Embedding.isSome

/-- The SQL expression 1 - (embedding <=> $1), i.e. the relevance_score
column. The dist parameter stands for the pgvector cosine-distance operator
<=>; it is kept abstract because cosine distance is irrational in general,
and every property proved below holds for an arbitrary distance operator.
Rows reaching this expression satisfy embedding IS NOT NULL, so the getD
default is never consulted. -/
def relevance (dist : List ℚ → List ℚ → ℚ) (query : List ℚ) (r : Tool) : ℚ :=
  1 - dist (r.Embedding.getD []) query

/-- PostgresToolRepository.FindSimilarWithScore: SELECT ...,
(1 - (embedding <=> $1))::float8 AS relevance_score FROM tools
WHERE deleted_at IS NULL AND embedding IS NOT NULL
AND (1 - (embedding <=> $1)) >= $2 ORDER BY embedding <=> $1 LIMIT $3.
The none result models the database error raised for a negative LIMIT. -/
def FindSimilarWithScore (dist : List ℚ → List ℚ → ℚ) (table : List Tool)
    (query : List ℚ) (minScore : ℚ) (limit : Int) :
    Option (List ToolWithScore) :=
  if limit < 0 then none
  else
    let qualifying := table.filter fun r =>
      isLiveWithEmbedding r && decide (minScore ≤ relevance dist query r)
    let ordered := qualifying.mergeSort fun a b =>
      decide (dist (a.Embedding.getD []) query ≤ dist (b.Embedding.getD []) query)
    some ((ordered.take limit.toNat).map fun r =>
      { tool := r, RelevanceScore := relevance dist query r })

-- ===== internal/tools: catalog, validation, description synthesis =====

/-- tools.ParameterProperty (internal/tools/tool.go). The Go field Type is a
Lean keyword, hence the primed name. A nil and an empty Enum slice are
identified. -/
structure ParameterProperty where
  Type' : String
  Description : String
  Enum : List String
  Default : Option String
deriving DecidableEq

/-- tools.Parameters. The Go Properties map is modelled as an association
list with distinct keys; json.Marshal emits Go map keys in sorted order,
which marshalParameters reproduces below. -/
structure Parameters where
  Properties : List (String × ParameterProperty)
  Required : List String
deriving DecidableEq

/-- The two-valued Go map membership test used by Parameters.Validate. -/
def hasProperty (props : List (String × ParameterProperty)) (k : String) : Bool :=
  props.any fun kv => kv.1 == k

/-- The loop of Parameters.Validate: walk Required in order and fail on the
first name that is not a key of Properties. -/
def validateRequired (props : List (String × ParameterProperty)) :
    List String → Except String Unit
  | [] => .ok ()
  | k :: rest =>
    if hasProperty props k then validateRequired props rest
    else .error ("required key \"" ++ k ++ "\" not found in properties")

/-- Parameters.Validate. -/
def Parameters.Validate (p : Parameters) : Except String Unit :=
  validateRequired p.Properties p.Required

/-- tools.ToolDefinition. -/
structure ToolDefinition where
  Name : String
  Description : String
  Parameters : Option Parameters
deriving DecidableEq

/-- ToolDefinition.Validate: validates the parameter schema when present. -/
def ToolDefinition.Validate (t : ToolDefinition) : Except String Unit :=
  match t.Parameters with
  | some p => p.Validate
  | none => .ok ()

/-- tools.Register: panics (modelled as an error value carrying the panic
message) when the definition fails validation, otherwise appends the
definition to the registry. -/
def Register (registry : List ToolDefinition) (tool : ToolDefinition) :
    Except String (List ToolDefinition) :=
  match tool.Validate with
  | .error e => .error ("invalid tool registration: " ++ tool.Name ++ " - " ++ e)
  | .ok _ => .ok (registry ++ [tool])

/-- A lowercase hexadecimal digit, as emitted by the encoding/json escapes. -/
def hexDigit (n : Nat) : Char :=
  if n < 10 then Char.ofNat (48 + n) else Char.ofNat (97 + (n % 16 - 10))

/-- A four-digit JSON unicode escape. -/
def uEscape (n : Nat) : String :=
  "\\u" ++ String.mk [hexDigit (n / 4096 % 16), hexDigit (n / 256 % 16),
    hexDigit (n / 16 % 16), hexDigit (n % 16)]

/-- encoding/json string escaping with the default HTML escaping, as
performed by json.Marshal inside DescribeTool. -/
def jsonEscapeChar (c : Char) : String :=
  if c = '"' then "\\\""
  else if c = '\\' then "\\\\"
  else if c = '\n' then "\\n"
  else if c = '\r' then "\\r"
  else if c = '\t' then "\\t"
  else if c = '<' ∨ c = '>' ∨ c = '&' then uEscape c.toNat
  else if c.toNat < 32 then uEscape c.toNat
  else if c.toNat = 8232 ∨ c.toNat = 8233 then uEscape c.toNat
  else String.singleton c

/-- A JSON string literal for s. -/
def jsonQuote (s : String) : String :=
  "\"" ++ String.join (s.data.map jsonEscapeChar) ++ "\""

/-- A JSON array of string literals. A nil and an empty Go slice are
identified. -/
def jsonStringArray (l : List String) : String :=
  "[" ++ String.intercalate "," (l.map jsonQuote) ++ "]"

/-- json.Marshal of a ParameterProperty: fields in declaration order, enum
omitted when empty (omitzero), default omitted when nil (omitempty). -/
def marshalParameterProperty (p : ParameterProperty) : String :=
  "\x7b\"type\":" ++ jsonQuote p.Type'
    ++ ",\"description\":" ++ jsonQuote p.Description
    ++ (if p.Enum.isEmpty then "" else ",\"enum\":" ++ jsonStringArray p.Enum)
    ++ (match p.Default with
        | none => ""
        | some d => ",\"default\":" ++ jsonQuote d)
    ++ "\x7d"

/-- json.Marshal of Parameters: the properties object with keys in sorted
order (encoding/json sorts Go map keys), then the required array. -/
def marshalParameters (p : Parameters) : String :=
  let sortedProps := p.Properties.mergeSort fun a b => decide (a.1 ≤ b.1)
  "\x7b\"properties\":\x7b"
    ++ String.intercalate ","
        (sortedProps.map fun kv => jsonQuote kv.1 ++ ":" ++ marshalParameterProperty kv.2)
    ++ "\x7d,\"required\":" ++ jsonStringArray p.Required ++ "\x7d"

/-- tools.ToolDescription. -/
structure ToolDescription where
  Text : String
  InputSchema : Option String
deriving DecidableEq

/-- tools.DescribeTool. json.Marshal cannot fail on Parameters, whose fields
are strings, slices and maps of strings, so the always-nil error return of
the Go function is dropped and the function is total. -/
def DescribeTool (toolDef : ToolDefinition) : ToolDescription :=
  let text := String.intercalate "\n"
    ["Tool: " ++ toolDef.Name, "Description: " ++ toolDef.Description]
  { Text := text
    InputSchema := toolDef.Parameters.map marshalParameters }

-- ===== internal/mcp: dispatch table and protocol handlers =====

/-- mcp.ToolHandler: raw JSON arguments to a (result, error) pair; JSON
payloads are modelled as strings and the Go pair as Except. -/
def ToolHandler : Type := String → Except String String

/-- mcp.RegisterExecutable: the Go map assignment on the dispatch table,
modelled as a pointwise update of the lookup function. The write always
succeeds and overwrites any previous handler under the same name. -/
def RegisterExecutable (handlers : String → Option ToolHandler)
    (toolName : String) (handler : ToolHandler) : String → Option ToolHandler :=
  fun name => if name = toolName then some handler else handlers name

/-- mcp.GetExecutableTool: the two-valued Go map read, returning the handler
and the exists flag. -/
def GetExecutableTool (handlers : String → Option ToolHandler) (name : String) :
    Option ToolHandler × Bool :=
  (handlers name, (handlers name).isSome)

/-- The text content and IsError flag of an mcp.CallToolResult, the only
parts the handlers under verification produce. -/
structure CallToolResult where
  IsError : Bool
  Text : String
deriving DecidableEq

/-- mcp.NewToolResultError. -/
def NewToolResultError (text : String) : CallToolResult :=
  { IsError := true, Text := text }

/-- mcp.NewToolResultText. -/
def NewToolResultText (text : String) : CallToolResult :=
  { IsError := false, Text := text }

/-- mcp.ExecuteToolInput (internal/mcp/types.go). -/
structure ExecuteToolInput where
  ToolName : String
  Arguments : String
deriving DecidableEq

/-- json.Marshal of mcp.ExecuteToolOutput: wraps the already serialized
handler result in the result field. -/
def marshalExecuteToolOutput (result : String) : String :=
  "\x7b\"result\":" ++ result ++ "\x7d"

/-- ServerDependencies.HandleExecuteTool after the two argument-decoding
steps succeed. The second component is the Go error return value of the
handler, which the source leaves nil on every path; matching on the Option
component of GetExecutableTool is the same test as the exists flag, which is
defined as its isSome. -/
def HandleExecuteTool (handlers : String → Option ToolHandler)
    (input : ExecuteToolInput) : CallToolResult × Option String :=
  match GetExecutableTool handlers input.ToolName with
  | (none, _) =>
    (NewToolResultError ("Tool not found: " ++ input.ToolName), none)
  | (some handler, _) =>
    match handler input.Arguments with
    | .error e => (NewToolResultError ("Tool execution failed: " ++ e), none)
    | .ok result => (NewToolResultText (marshalExecuteToolOutput result), none)

/-- mcp.SearchToolsInput (internal/mcp/types.go); the float64 threshold is
modelled as an exact rational. -/
structure SearchToolsInput where
  Query : String
  MaxResults : Int
  MinRelevanceScore : ℚ
deriving DecidableEq

/-- json.Unmarshal into SearchToolsInput: an absent optional field leaves
the Go zero value in place. -/
def searchToolsInputOfJson (query : String) (maxResults : Option Int)
    (minRelevanceScore : Option ℚ) : SearchToolsInput :=
  { Query := query
    MaxResults := maxResults.getD 0
    MinRelevanceScore := minRelevanceScore.getD 0 }

/-- The defaulting block at the top of ServerDependencies.HandleSearchTools:
a zero MaxResults becomes 5 and a zero MinRelevanceScore becomes 0.7. -/
def setSearchDefaults (input : SearchToolsInput) : SearchToolsInput :=
  let input1 :=
    if input.MaxResults = 0 then { input with MaxResults := 5 } else input
  if input1.MinRelevanceScore = 0 then
    { input1 with MinRelevanceScore := 7/10 }
  else input1

-- ===== internal/embeddings: the OpenAI gateway =====

/-- One element of the OpenAI embeddings response Data array; the element
type stands for float64. -/
structure EmbeddingData (α : Type) where
  Embedding : List α
deriving DecidableEq

/-- The OpenAI embeddings response consumed by GenerateEmbedding. -/
structure EmbeddingResponse (α : Type) where
  Data : List (EmbeddingData α)
deriving DecidableEq

/-- OpenAIProvider.GenerateEmbedding, with the network call abstracted into
the resp argument (ok on success, error on a transport failure) and the
float64 to float32 narrowing of the element-wise conversion loop abstracted
as float32ofFloat64. After the length guard the Data list is a singleton, so
the headD default is never consulted. -/
def GenerateEmbedding {α β : Type} (float32ofFloat64 : α → β)
    (resp : Except String (EmbeddingResponse α)) : Except String (List β) :=
  match resp with
  | .error err => .error ("openai embedding request failed: " ++ err)
  | .ok r =>
    if r.Data.length ≠ 1 then
      .error ("expected 1 embedding, got " ++ toString r.Data.length)
    else
      .ok ((r.Data.headD { Embedding := [] }).Embedding.map float32ofFloat64)

-- ===== the get_holidays tool =====

/-- tools.GetHolidaysInput. -/
structure GetHolidaysInput where
  Year : String
  CountryCode : String
deriving DecidableEq

/-- The URL construction of tools.GetHolidays. The local variable year holds
the current-year default, but the Sprintf below interpolates input.Year,
exactly as the source does, so year is dead after its computation. -/
def GetHolidaysURL (currentYear : Nat) (input : GetHolidaysInput) : String :=
  let year := if input.Year = "" then toString currentYear else input.Year
  "https://date.nager.at/api/v3/PublicHolidays/" ++ input.Year ++ "/"
    ++ input.CountryCode.toLower

-- ===== concrete inputs used by the witness theorems =====

/-- The countryCode parameter of the get_holidays tool. -/
def countryProperty : ParameterProperty :=
  { Type' := "string"
    Description := "A valid ISO 3166-1 alpha-2 country code."
    Enum := []
    Default := none }

/-- A valid parameter schema: every required name is a key of Properties. -/
def exampleValidParams : Parameters :=
  { Properties := [("year", countryProperty), ("countryCode", countryProperty)]
    Required := ["year", "countryCode"] }

/-- An invalid parameter schema: required references a missing name. -/
def exampleInvalidParams : Parameters :=
  { Properties := [("year", countryProperty)]
    Required := ["country"] }

/-- A well-formed tool definition. -/
def exampleValidDef : ToolDefinition :=
  { Name := "get_holidays"
    Description := "Retrieve the list of all public holidays for the specified year and country"
    Parameters := some exampleValidParams }

/-- A tool definition violating the required-in-properties invariant. -/
def exampleInvalidDef : ToolDefinition :=
  { Name := "bad_tool"
    Description := "A tool whose required list references a missing parameter"
    Parameters := some exampleInvalidParams }

/-- A live persisted row with an embedding. -/
def exampleRowA : Tool :=
  { ID := 1
    CreatedAt := 10
    UpdatedAt := 10
    DeletedAt := none
    Name := "get_holidays"
    Description := "d1"
    Embedding := some [1, 0]
    InputSchema := none }

/-- The distance operator that is identically zero, used to instantiate the
abstract metric in witnesses. -/
def distZero : List ℚ → List ℚ → ℚ :=
  fun _ _ => 0

/-- First upsert payload. -/
def exampleToolInput1 : ToolInput :=
  { Name := "get_holidays"
    Description := "d1"
    Embedding := some [1, 0]
    InputSchema := none }

/-- Second upsert payload for the same name. -/
def exampleToolInput2 : ToolInput :=
  { Name := "get_holidays"
    Description := "d2"
    Embedding := some [0, 1]
    InputSchema := some "s" }

/-- The row produced by replaying exampleToolInput2 over exampleRowA. -/
def exampleRowB : Tool :=
  { ID := 1
    CreatedAt := 10
    UpdatedAt := 20
    DeletedAt := none
    Name := "get_holidays"
    Description := "d2"
    Embedding := some [0, 1]
    InputSchema := some "s" }

/-- An empty dispatch table. -/
def handlersEmpty : String → Option ToolHandler :=
  fun _ => none

/-- A handler that always fails. -/
def failingHandler : ToolHandler :=
  fun _ => .error "boom"

/-- A dispatch table whose every lookup yields the failing handler. -/
def handlersFailing : String → Option ToolHandler :=
  fun _ => some failingHandler

/-- An execute_tool request for a tool that is not registered. -/
def exampleExecInput : ExecuteToolInput :=
  { ToolName := "nonexistent", Arguments := "\x7b\x7d" }

/-- A handler returning the constant result 1. -/
def handlerOne : ToolHandler :=
  fun _ => .ok "1"

/-- A handler returning the constant result 2. -/
def handlerTwo : ToolHandler :=
  fun _ => .ok "2"

/-- An OpenAI response with exactly one embedding. -/
def exampleEmbeddingResp : EmbeddingResponse Int :=
  { Data := [{ Embedding := [1, 2] }] }

/-- An OpenAI response with no embedding at all. -/
def exampleEmptyResp : EmbeddingResponse Int :=
  { Data := [] }

/-- A get_holidays input with an empty year. -/
def exampleHolidaysInput : GetHolidaysInput :=
  { Year := "", CountryCode := "CO" }

-- ===== helper lemmas =====

/-- strings.Join of two pieces with a newline separator. -/
theorem intercalate_pair (a b : String) :
    String.intercalate "\n" [a, b] = a ++ "\n" ++ b := by
  simp [String.intercalate, String.intercalate.go]

/-- hasProperty is map-key membership. -/
theorem hasProperty_iff (props : List (String × ParameterProperty)) (k : String) :
    hasProperty props k = true ↔ ∃ kv ∈ props, kv.1 = k := by
  simp [hasProperty, List.any_eq_true, beq_iff_eq]

/-- validateRequired succeeds exactly when every required name is a key. -/
theorem validateRequired_ok_iff (props : List (String × ParameterProperty)) :
    ∀ reqs : List String, (validateRequired props reqs = Except.ok () ↔
      ∀ k ∈ reqs, hasProperty props k = true)
  | [] => by simp [validateRequired]
  | k :: rest => by
    by_cases h : hasProperty props k = true
    · simp [validateRequired, h, validateRequired_ok_iff props rest]
    · simp [validateRequired, h]

/-- setSearchDefaults acts independently on the two defaulted fields. -/
theorem setSearchDefaults_eq (input : SearchToolsInput) :
    setSearchDefaults input =
      { Query := input.Query
        MaxResults := if input.MaxResults = 0 then 5 else input.MaxResults
        MinRelevanceScore :=
          if input.MinRelevanceScore = 0 then 7/10 else input.MinRelevanceScore } := by
  unfold setSearchDefaults
  by_cases h1 : input.MaxResults = 0 <;> by_cases h2 : input.MinRelevanceScore = 0 <;>
    simp [h1, h2]

-- ===== claim theorems =====

/-- C4: a ToolDefinition whose required list names a parameter missing from
the properties map makes Register fail fatally (the modelled panic), and a
definition satisfying the invariant, or carrying no schema at all, is
appended to the catalog. -/
theorem register_required_invariant
    (registry : List ToolDefinition) (tool : ToolDefinition) :
    (∀ p k, tool.Parameters = some p → k ∈ p.Required →
      (∀ kv ∈ p.Properties, kv.1 ≠ k) →
      ∃ msg, Register registry tool = Except.error msg) ∧
    ((tool.Parameters = none ∨ ∃ p, tool.Parameters = some p ∧
        ∀ k ∈ p.Required, ∃ kv ∈ p.Properties, kv.1 = k) →
      Register registry tool = Except.ok (registry ++ [tool])) := by
  constructor
  · intro p k hp hk hmiss
    have hnp : ¬ hasProperty p.Properties k = true := by
      intro htrue
      rcases (hasProperty_iff p.Properties k).mp htrue with ⟨kv, hkv, hkvk⟩
      exact hmiss kv hkv hkvk
    have hval : ¬ validateRequired p.Properties p.Required = Except.ok () := by
      intro hok
      exact hnp ((validateRequired_ok_iff p.Properties p.Required).mp hok k hk)
    cases hv : validateRequired p.Properties p.Required with
    | ok u => cases u; exact absurd hv hval
    | error m =>
      refine ⟨"invalid tool registration: " ++ tool.Name ++ " - " ++ m, ?_⟩
      simp [Register, ToolDefinition.Validate, hp, Parameters.Validate, hv]
  · intro hok
    have hv : tool.Validate = Except.ok () := by
      rcases hok with hnone | ⟨p, hp, hall⟩
      · simp [ToolDefinition.Validate, hnone]
      · have hreq : ∀ k ∈ p.Required, hasProperty p.Properties k = true := by
          intro k hk
          exact (hasProperty_iff p.Properties k).mpr (hall k hk)
        simp [ToolDefinition.Validate, hp, Parameters.Validate,
          (validateRequired_ok_iff p.Properties p.Required).mpr hreq]
    simp [Register, hv]

/-- Witness for C4: registering the invalid example fails with the panic
message, registering the valid one appends it to the catalog. -/
theorem register_required_invariant_witness :
    exampleInvalidDef.Parameters = some exampleInvalidParams ∧
    (∃ msg, Register [] exampleInvalidDef = Except.error msg) ∧
    Register [] exampleValidDef = Except.ok ([] ++ [exampleValidDef]) := by
  refine ⟨rfl, ?_, ?_⟩
  · exact (register_required_invariant [] exampleInvalidDef).1 exampleInvalidParams
      "country" rfl (by decide) (by decide)
  · exact (register_required_invariant [] exampleValidDef).2
      (Or.inr ⟨exampleValidParams, rfl, by decide⟩)

/-- C5: execute_tool surfaces an unknown tool name, and any handler error, as
a user-visible error result whose text carries the relevant detail, while the
protocol-level error return value is nil on every path. -/
theorem handleExecuteTool_user_errors
    (handlers : String → Option ToolHandler) (input : ExecuteToolInput) :
    (HandleExecuteTool handlers input).2 = none ∧
    (handlers input.ToolName = none →
      HandleExecuteTool handlers input =
        (NewToolResultError ("Tool not found: " ++ input.ToolName), none)) ∧
    (∀ handler e, handlers input.ToolName = some handler →
      handler input.Arguments = Except.error e →
      HandleExecuteTool handlers input =
        (NewToolResultError ("Tool execution failed: " ++ e), none)) := by
  refine ⟨?_, ?_, ?_⟩
  · cases h : handlers input.ToolName with
    | none => simp [HandleExecuteTool, GetExecutableTool, h]
    | some handler =>
      cases hr : handler input.Arguments with
      | error e => simp [HandleExecuteTool, GetExecutableTool, h, hr]
      | ok r => simp [HandleExecuteTool, GetExecutableTool, h, hr]
  · intro h
    simp [HandleExecuteTool, GetExecutableTool, h]
  · intro handler e hh he
    simp [HandleExecuteTool, GetExecutableTool, hh, he]

/-- Witness for C5: executing the unregistered "nonexistent" tool yields the
structured not-found result, and a failing handler yields the execution-failed
result; neither is a protocol fault. -/
theorem handleExecuteTool_user_errors_witness :
    handlersEmpty "nonexistent" = none ∧
    HandleExecuteTool handlersEmpty exampleExecInput =
      (NewToolResultError ("Tool not found: " ++ "nonexistent"), none) ∧
    HandleExecuteTool handlersFailing exampleExecInput =
      (NewToolResultError ("Tool execution failed: " ++ "boom"), none) := by
  refine ⟨rfl, ?_, ?_⟩
  · exact (handleExecuteTool_user_errors handlersEmpty exampleExecInput).2.1 rfl
  · exact (handleExecuteTool_user_errors handlersFailing exampleExecInput).2.2
      failingHandler "boom" rfl rfl

/-- C6: the embedding gateway hard-fails when the provider response does not
hold exactly one embedding, returns precisely the single vector converted
element-wise on success, and tags transport failures separately. -/
theorem generateEmbedding_exactly_one {α β : Type} (float32ofFloat64 : α → β)
    (resp : EmbeddingResponse α) :
    (resp.Data.length ≠ 1 →
      GenerateEmbedding float32ofFloat64 (Except.ok resp) =
        Except.error ("expected 1 embedding, got " ++ toString resp.Data.length)) ∧
    (∀ d, resp.Data = [d] →
      GenerateEmbedding float32ofFloat64 (Except.ok resp) =
        Except.ok (d.Embedding.map float32ofFloat64)) ∧
    (∀ e, GenerateEmbedding float32ofFloat64 (Except.error e) =
      Except.error ("openai embedding request failed: " ++ e)) := by
  refine ⟨?_, ?_, fun e => rfl⟩
  · intro h
    simp [GenerateEmbedding, h]
  · intro d hd
    simp [GenerateEmbedding, hd]

/-- Witness for C6: a zero-embedding response fails hard and a one-embedding
response returns exactly that vector. -/
theorem generateEmbedding_exactly_one_witness :
    exampleEmptyResp.Data.length ≠ 1 ∧
    GenerateEmbedding (fun x : Int => x) (Except.ok exampleEmptyResp) =
      Except.error ("expected 1 embedding, got " ++ toString exampleEmptyResp.Data.length) ∧
    GenerateEmbedding (fun x : Int => x) (Except.ok exampleEmbeddingResp) =
      Except.ok [1, 2] := by
  refine ⟨by decide, ?_, ?_⟩
  · exact (generateEmbedding_exactly_one (fun x : Int => x) exampleEmptyResp).1 (by decide)
  · simpa using (generateEmbedding_exactly_one (fun x : Int => x) exampleEmbeddingResp).2.1
      { Embedding := [1, 2] } rfl

/-- C7: DescribeTool is deterministic and pure, renders the embeddable text
from the name and description, and sets InputSchema to the JSON serialization
of the parameter schema exactly when one is present. -/
theorem describeTool_deterministic (d : ToolDefinition) :
    (DescribeTool d).Text =
      "Tool: " ++ d.Name ++ "\n" ++ "Description: " ++ d.Description ∧
    (DescribeTool d).InputSchema = d.Parameters.map marshalParameters ∧
    ∀ d2, d = d2 → DescribeTool d = DescribeTool d2 := by
  refine ⟨?_, rfl, ?_⟩
  · simp only [DescribeTool]
    rw [intercalate_pair]
    simp only [String.append_assoc]
  · intro d2 h
    rw [h]

/-- Witness for C7 at the get_holidays definition. -/
theorem describeTool_deterministic_witness :
    (DescribeTool exampleValidDef).Text =
      "Tool: " ++ exampleValidDef.Name ++ "\n" ++ "Description: "
        ++ exampleValidDef.Description ∧
    DescribeTool exampleValidDef = DescribeTool exampleValidDef :=
  ⟨(describeTool_deterministic exampleValidDef).1,
   (describeTool_deterministic exampleValidDef).2.2 exampleValidDef rfl⟩

/-- C8: a search_tools request carrying an explicit zero max_results or
min_relevance_score is indistinguishable from one omitting the field; the
defaults 5 and 0.7 are substituted, and the effective values are never zero. -/
theorem searchDefaults_zero_indistinguishable :
    (∀ q : String,
      setSearchDefaults (searchToolsInputOfJson q (some 0) (some 0)) =
        setSearchDefaults (searchToolsInputOfJson q none none)) ∧
    (∀ q : String,
      setSearchDefaults (searchToolsInputOfJson q none none) =
        { Query := q, MaxResults := 5, MinRelevanceScore := 7/10 }) ∧
    (∀ input : SearchToolsInput,
      (setSearchDefaults input).MaxResults ≠ 0 ∧
      (setSearchDefaults input).MinRelevanceScore ≠ 0) := by
  refine ⟨fun q => rfl, fun q => ?_, fun input => ?_⟩
  · rw [setSearchDefaults_eq]
    norm_num [searchToolsInputOfJson]
  · rw [setSearchDefaults_eq]
    constructor
    · by_cases h : input.MaxResults = 0 <;> simp [h]
    · by_cases h : input.MinRelevanceScore = 0 <;> simp [h]

/-- Witness for C8: the explicit-zeros request produces exactly the default
parameters. -/
theorem searchDefaults_zero_indistinguishable_witness :
    setSearchDefaults (searchToolsInputOfJson "holidays" (some 0) (some 0)) =
      { Query := "holidays", MaxResults := 5, MinRelevanceScore := 7/10 } :=
  (searchDefaults_zero_indistinguishable.1 "holidays").trans
    (searchDefaults_zero_indistinguishable.2.1 "holidays")

/-- C9: registering a handler twice under one name silently replaces the
first handler with the second, the following lookup returns the newest
handler with exists true, and other names are untouched. -/
theorem registerExecutable_overwrites
    (handlers : String → Option ToolHandler) (n : String) (h1 h2 : ToolHandler)
    (hne : h1 ≠ h2) :
    GetExecutableTool (RegisterExecutable (RegisterExecutable handlers n h1) n h2) n =
      (some h2, true) ∧
    ∀ k, k ≠ n → RegisterExecutable (RegisterExecutable handlers n h1) n h2 k = handlers k := by
  constructor
  · simp [GetExecutableTool, RegisterExecutable]
  · intro k hk
    simp [RegisterExecutable, hk]

/-- Witness for C9 with two observably different handlers. -/
theorem registerExecutable_overwrites_witness :
    handlerOne ≠ handlerTwo ∧
    GetExecutableTool (RegisterExecutable (RegisterExecutable handlersEmpty
      "get_holidays" handlerOne) "get_holidays" handlerTwo) "get_holidays" =
      (some handlerTwo, true) := by
  have hne : handlerOne ≠ handlerTwo := by
    intro h
    simpa [handlerOne, handlerTwo] using congrFun h ""
  exact ⟨hne,
    (registerExecutable_overwrites handlersEmpty "get_holidays" handlerOne handlerTwo hne).1⟩

/-- C10: with an empty Year the current-year default bound to the local
variable is dead; the request URL is built from the original empty input.Year
and has an empty year path segment, independent of the current date. -/
theorem getHolidaysURL_ignores_year_default (currentYear : Nat)
    (input : GetHolidaysInput) (h : input.Year = "") :
    GetHolidaysURL currentYear input =
      "https://date.nager.at/api/v3/PublicHolidays//" ++ input.CountryCode.toLower ∧
    ∀ otherYear : Nat, GetHolidaysURL currentYear input = GetHolidaysURL otherYear input := by
  constructor
  · simp only [GetHolidaysURL]
    rw [h, String.append_empty]
    rfl
  · intro otherYear
    rfl

/-- Witness for C10: the empty-year request URL for country CO. -/
theorem getHolidaysURL_ignores_year_default_witness :
    exampleHolidaysInput.Year = "" ∧
    GetHolidaysURL 2026 exampleHolidaysInput =
      "https://date.nager.at/api/v3/PublicHolidays//"
        ++ exampleHolidaysInput.CountryCode.toLower :=
  ⟨rfl, (getHolidaysURL_ignores_year_default 2026 exampleHolidaysInput rfl).1⟩

/-- Replacing every element satisfying p by a fixed element satisfying p
preserves the p-count. -/
theorem countP_map_ite {α : Type} (p : α → Bool) (u : α) (hu : p u = true)
    (l : List α) : (l.map fun r => if p r then u else r).countP p = l.countP p := by
  induction l with
  | nil => rfl
  | cons a t ih =>
    by_cases hpa : p a = true
    · simp [List.countP_cons, hpa, hu, ih]
    · simp [List.countP_cons, hpa, ih]

/-- After an upsert the table holds exactly one live row under the upserted
name, provided the unique partial index held before. -/
theorem upsertTx_fst_countP (nowTime newId : Int) (table : List Tool)
    (t : ToolInput) (huniq : table.countP (isLiveNamed t.Name) ≤ 1) :
    ((UpsertTx nowTime newId table t).1).countP (isLiveNamed t.Name) = 1 := by
  cases hf : table.find? (isLiveNamed t.Name) with
  | some row =>
    have hrow : isLiveNamed t.Name row = true := List.find?_some hf
    have hupd : isLiveNamed t.Name
        { row with
          Description := t.Description
          Embedding := t.Embedding
          InputSchema := t.InputSchema
          UpdatedAt := nowTime } = true := by
      simpa [isLiveNamed] using hrow
    have hpos : 0 < table.countP (isLiveNamed t.Name) :=
      List.countP_pos_iff.mpr ⟨row, List.mem_of_find?_eq_some hf, hrow⟩
    simp only [UpsertTx, hf]
    rw [countP_map_ite _ _ hupd]
    omega
  | none =>
    have h0 : table.countP (isLiveNamed t.Name) = 0 :=
      List.countP_eq_zero.mpr (List.find?_eq_none.mp hf)
    simp [UpsertTx, hf, List.countP_append, h0, List.countP_cons, isLiveNamed]

/-- Every live row under the upserted name in the post-upsert table is the
row described by the RETURNING clause. -/
theorem upsertTx_live_eq_snd (nowTime newId : Int) (table : List Tool)
    (t : ToolInput) :
    ∀ r ∈ (UpsertTx nowTime newId table t).1, isLiveNamed t.Name r = true →
      r = (UpsertTx nowTime newId table t).2 := by
  intro r hr hlive
  cases hf : table.find? (isLiveNamed t.Name) with
  | some row =>
    simp only [UpsertTx, hf] at hr ⊢
    rcases List.mem_map.mp hr with ⟨x, hx, hxr⟩
    by_cases hpx : isLiveNamed t.Name x = true
    · rw [if_pos hpx] at hxr
      exact hxr.symm
    · rw [if_neg hpx] at hxr
      exact absurd (hxr ▸ hlive) hpx
  | none =>
    simp only [UpsertTx, hf] at hr ⊢
    rcases List.mem_append.mp hr with hmem | hmem
    · exact absurd hlive (List.find?_eq_none.mp hf r hmem)
    · simpa using hmem

/-- The RETURNING row of an upsert is live and carries the upserted name. -/
theorem upsertTx_snd_live (nowTime newId : Int) (table : List Tool)
    (t : ToolInput) :
    isLiveNamed t.Name (UpsertTx nowTime newId table t).2 = true := by
  cases hf : table.find? (isLiveNamed t.Name) with
  | some row =>
    have hrow : isLiveNamed t.Name row = true := List.find?_some hf
    simp only [UpsertTx, hf]
    simpa [isLiveNamed] using hrow
  | none =>
    simp [UpsertTx, hf, isLiveNamed]

/-- On a conflict the upsert rewrites exactly the found row, keeping its id
and created_at and refreshing the payload columns and updated_at. -/
theorem upsertTx_snd_of_find (nowTime newId : Int) (table : List Tool)
    (t : ToolInput) (row : Tool)
    (hf : table.find? (isLiveNamed t.Name) = some row) :
    (UpsertTx nowTime newId table t).2 =
      { row with
        Description := t.Description
        Embedding := t.Embedding
        InputSchema := t.InputSchema
        UpdatedAt := nowTime } := by
  simp [UpsertTx, hf]

/-- C2: upserting the same name twice leaves exactly one live row under that
name; its id and created_at are the ones returned by the first upsert, and
its description, embedding, input_schema and updated_at come from the second
upsert. -/
theorem upsertTx_upsert_twice
    (table table1 table2 : List Tool) (t1 t2 : ToolInput) (n : String)
    (now1 now2 id1 id2 : Int) (r1 r2 : Tool)
    (hn1 : t1.Name = n) (hn2 : t2.Name = n)
    (huniq : table.countP (isLiveNamed n) ≤ 1)
    (h1 : UpsertTx now1 id1 table t1 = (table1, r1))
    (h2 : UpsertTx now2 id2 table1 t2 = (table2, r2)) :
    table2.countP (isLiveNamed n) = 1 ∧
    (∀ r ∈ table2, isLiveNamed n r = true → r = r2) ∧
    r2.ID = r1.ID ∧ r2.CreatedAt = r1.CreatedAt ∧
    r2.Description = t2.Description ∧ r2.Embedding = t2.Embedding ∧
    r2.InputSchema = t2.InputSchema ∧ r2.UpdatedAt = now2 := by
  subst hn1
  have hfst1 : (UpsertTx now1 id1 table t1).1 = table1 := by rw [h1]
  have hsnd1 : (UpsertTx now1 id1 table t1).2 = r1 := by rw [h1]
  have hfst2 : (UpsertTx now2 id2 table1 t2).1 = table2 := by rw [h2]
  have hsnd2 : (UpsertTx now2 id2 table1 t2).2 = r2 := by rw [h2]
  have hc1 : table1.countP (isLiveNamed t1.Name) = 1 := by
    rw [← hfst1]
    exact upsertTx_fst_countP now1 id1 table t1 huniq
  have hc1' : table1.countP (isLiveNamed t2.Name) = 1 := by rw [hn2]; exact hc1
  obtain ⟨row, hfrow⟩ : ∃ row, table1.find? (isLiveNamed t2.Name) = some row := by
    cases hcase : table1.find? (isLiveNamed t2.Name) with
    | some row => exact ⟨row, rfl⟩
    | none =>
      have : table1.countP (isLiveNamed t2.Name) = 0 :=
        List.countP_eq_zero.mpr (List.find?_eq_none.mp hcase)
      omega
  have hrow_eq : row = r1 := by
    have hmem : row ∈ (UpsertTx now1 id1 table t1).1 := by
      rw [hfst1]
      exact List.mem_of_find?_eq_some hfrow
    have hlive : isLiveNamed t1.Name row = true := by
      rw [← hn2]
      exact List.find?_some hfrow
    have := upsertTx_live_eq_snd now1 id1 table t1 row hmem hlive
    rw [hsnd1] at this
    exact this
  have hr2 : r2 =
      { r1 with
        Description := t2.Description
        Embedding := t2.Embedding
        InputSchema := t2.InputSchema
        UpdatedAt := now2 } := by
    have := upsertTx_snd_of_find now2 id2 table1 t2 row hfrow
    rw [hsnd2, hrow_eq] at this
    exact this
  refine ⟨?_, ?_, ?_, ?_, ?_, ?_, ?_, ?_⟩
  · rw [← hn2, ← hfst2]
    exact upsertTx_fst_countP now2 id2 table1 t2 (by omega)
  · intro r hr hliver
    have hmem : r ∈ (UpsertTx now2 id2 table1 t2).1 := by rw [hfst2]; exact hr
    have hliver' : isLiveNamed t2.Name r = true := by rw [hn2]; exact hliver
    have := upsertTx_live_eq_snd now2 id2 table1 t2 r hmem hliver'
    rw [hsnd2] at this
    exact this
  · rw [hr2]
  · rw [hr2]
  · rw [hr2]
  · rw [hr2]
  · rw [hr2]
  · rw [hr2]

/-- Witness for C2: replaying the two example payloads over the empty table
leaves the single merged row with the first id and created_at. -/
theorem upsertTx_upsert_twice_witness :
    UpsertTx 10 1 [] exampleToolInput1 = ([exampleRowA], exampleRowA) ∧
    UpsertTx 20 2 [exampleRowA] exampleToolInput2 = ([exampleRowB], exampleRowB) ∧
    [exampleRowB].countP (isLiveNamed "get_holidays") = 1 ∧
    exampleRowB.ID = exampleRowA.ID ∧
    exampleRowB.CreatedAt = exampleRowA.CreatedAt ∧
    exampleRowB.Description = exampleToolInput2.Description ∧
    exampleRowB.UpdatedAt = 20 := by
  have h1 : UpsertTx 10 1 [] exampleToolInput1 = ([exampleRowA], exampleRowA) := rfl
  have h2 : UpsertTx 20 2 [exampleRowA] exampleToolInput2 =
      ([exampleRowB], exampleRowB) := rfl
  have main := upsertTx_upsert_twice [] [exampleRowA] [exampleRowB]
    exampleToolInput1 exampleToolInput2 "get_holidays" 10 20 1 2
    exampleRowA exampleRowB rfl rfl (by decide) h1 h2
  exact ⟨h1, h2, main.1, main.2.2.1, main.2.2.2.1, main.2.2.2.2.1,
    main.2.2.2.2.2.2.2⟩

/-- Every element of a FindSimilarWithScore result comes from a live table
row with an embedding whose relevance clears the threshold, and carries that
row and its relevance. -/
theorem findSimilarWithScore_mem (dist : List ℚ → List ℚ → ℚ)
    (table : List Tool) (query : List ℚ) (minScore : ℚ) (limit : Int)
    (l : List ToolWithScore)
    (hres : FindSimilarWithScore dist table query minScore limit = some l) :
    ∀ s ∈ l, s.tool ∈ table ∧ isLiveWithEmbedding s.tool = true ∧
      minScore ≤ relevance dist query s.tool ∧
      s.RelevanceScore = relevance dist query s.tool := by
  intro s hs
  unfold FindSimilarWithScore at hres
  by_cases hneg : limit < 0
  · simp [hneg] at hres
  · simp only [if_neg hneg, Option.some.injEq] at hres
    subst hres
    rcases List.mem_map.mp hs with ⟨r, hrtake, hrs⟩
    have hrsort := (List.take_sublist _ _).subset hrtake
    have hrfilter := (List.mergeSort_perm _ _).mem_iff.mp hrsort
    rcases List.mem_filter.mp hrfilter with ⟨hrtable, hpred⟩
    rw [Bool.and_eq_true] at hpred
    rcases hpred with ⟨hlive, hscore⟩
    subst hrs
    exact ⟨hrtable, hlive, of_decide_eq_true hscore, rfl⟩

/-- C1: every row returned by FindSimilarWithScore scores at least minScore,
its reported relevance is 1 minus the distance between its embedding and the
query, and every live embedded row scoring below minScore is absent. -/
theorem findSimilarWithScore_threshold (dist : List ℚ → List ℚ → ℚ)
    (table : List Tool) (query : List ℚ) (minScore : ℚ) (limit : Int)
    (l : List ToolWithScore)
    (hres : FindSimilarWithScore dist table query minScore limit = some l) :
    (∀ s ∈ l, minScore ≤ s.RelevanceScore ∧
      s.RelevanceScore = relevance dist query s.tool) ∧
    (∀ r ∈ table, r.DeletedAt = none → ∀ e, r.Embedding = some e →
      1 - dist e query < minScore → ∀ s ∈ l, s.tool ≠ r) := by
  constructor
  · intro s hs
    obtain ⟨-, -, hmin, hscore⟩ :=
      findSimilarWithScore_mem dist table query minScore limit l hres s hs
    exact ⟨hscore ▸ hmin, hscore⟩
  · intro r hr hdel e hemb hlow s hs heq
    obtain ⟨-, -, hmin, -⟩ :=
      findSimilarWithScore_mem dist table query minScore limit l hres s hs
    rw [heq, relevance, hemb, Option.getD_some] at hmin
    exact absurd hmin (not_le.mpr hlow)

/-- Witness for C1: with the zero metric a single live row scores 1 and is
returned; its score clears the threshold 0. -/
theorem findSimilarWithScore_threshold_witness :
    FindSimilarWithScore distZero [exampleRowA] [1] 0 1 =
      some [{ tool := exampleRowA, RelevanceScore := 1 }] ∧
    (0 : ℚ) ≤ (ToolWithScore.mk exampleRowA 1).RelevanceScore := by
  have hconc : FindSimilarWithScore distZero [exampleRowA] [1] 0 1 =
      some [{ tool := exampleRowA, RelevanceScore := 1 }] := by
    norm_num [FindSimilarWithScore, relevance, isLiveWithEmbedding, distZero,
      exampleRowA, List.filter, List.mergeSort_singleton]
  refine ⟨hconc, ?_⟩
  exact ((findSimilarWithScore_threshold distZero [exampleRowA] [1] 0 1 _ hconc).1
    (ToolWithScore.mk exampleRowA 1) (List.mem_singleton.mpr rfl)).1

/-- C3: a FindSimilarWithScore result is non-increasing in RelevanceScore
and holds at most limit rows. -/
theorem findSimilarWithScore_ordered_limited (dist : List ℚ → List ℚ → ℚ)
    (table : List Tool) (query : List ℚ) (minScore : ℚ) (limit : Int)
    (l : List ToolWithScore)
    (hres : FindSimilarWithScore dist table query minScore limit = some l) :
    List.Pairwise (fun a b : ToolWithScore => b.RelevanceScore ≤ a.RelevanceScore) l ∧
    (l.length : Int) ≤ limit := by
  unfold FindSimilarWithScore at hres
  by_cases hneg : limit < 0
  · simp [hneg] at hres
  · simp only [if_neg hneg, Option.some.injEq] at hres
    subst hres
    constructor
    · have hsorted := @List.sorted_mergeSort Tool
        (fun a b =>
          decide (dist (a.Embedding.getD []) query ≤ dist (b.Embedding.getD []) query))
        (fun a b c hab hbc =>
          decide_eq_true (le_trans (of_decide_eq_true hab) (of_decide_eq_true hbc)))
        (fun a b => by
          rcases le_total (dist (a.Embedding.getD []) query)
              (dist (b.Embedding.getD []) query) with h | h <;>
            simp [h])
        (table.filter fun r =>
          isLiveWithEmbedding r && decide (minScore ≤ relevance dist query r))
      have htake := List.Pairwise.sublist (List.take_sublist limit.toNat _) hsorted
      refine List.pairwise_map.mpr (htake.imp ?_)
      intro a b hab
      exact sub_le_sub_left (of_decide_eq_true hab) 1
    · have hmin := Nat.min_le_left limit.toNat
        (((table.filter fun r =>
          isLiveWithEmbedding r && decide (minScore ≤ relevance dist query r)).mergeSort
            fun a b =>
              decide (dist (a.Embedding.getD []) query ≤
                dist (b.Embedding.getD []) query)).length)
      simp only [List.length_map, List.length_take]
      omega

/-- Witness for C3: the single-row result has length one, below the limit 5. -/
theorem findSimilarWithScore_ordered_limited_witness :
    FindSimilarWithScore distZero [exampleRowA] [1] 0 5 =
      some [{ tool := exampleRowA, RelevanceScore := 1 }] ∧
    (([{ tool := exampleRowA, RelevanceScore := 1 }] : List ToolWithScore).length : Int) ≤ 5 := by
  have hconc : FindSimilarWithScore distZero [exampleRowA] [1] 0 5 =
      some [{ tool := exampleRowA, RelevanceScore := 1 }] := by
    norm_num [FindSimilarWithScore, relevance, isLiveWithEmbedding, distZero,
      exampleRowA, List.filter, List.mergeSort_singleton]
  exact ⟨hconc,
    (findSimilarWithScore_ordered_limited distZero [exampleRowA] [1] 0 5 _ hconc).2⟩
